import Mathlib

set_option maxRecDepth 4000

/-!
# Verification of the MNIST basics notebook

A shallow embedding of `src/notebooks/pytorch/0 Basics.ipynb`.

Numeric tensor values are modelled as exact rationals (`ℚ`); a 1-channel
image is a list of rows of intensities, a weight matrix a list of rows.
The external collaborators (autograd, the cross-entropy loss, the random
number generator) are modelled as explicit function parameters, matching
the notebook where `loss_fn`, `optimizer` and the dataloaders are passed
into `train`/`test` from outside.
-/

/-- A 1-channel image: a list of rows of pixel intensities. -/
abbrev Image := List (List ℚ)

/-- The `nn.ReLU` activation on one scalar: `max (0, x)`. -/
def relu (x : ℚ) : ℚ := max 0 x

/-- Dot product of two vectors (`zipWith` truncates to the shorter). -/
def dot (xs ys : List ℚ) : ℚ := (List.zipWith (· * ·) xs ys).sum

/-- A `nn.Linear` layer with weight matrix `W` (one row per output feature) and
bias vector `b`: output feature `i` is `dot (W i) x + b i`. -/
def linear (W : List (List ℚ)) (b : List ℚ) (x : List ℚ) : List ℚ :=
  List.zipWith (fun row bi => dot row x + bi) W b

/-- One module of the `nn.Sequential` stack. -/
inductive Layer where
  | linearL (W : List (List ℚ)) (b : List ℚ) : Layer
  | reluL : Layer

/-- Apply one module to a feature vector. -/
def Layer.apply : Layer → List ℚ → List ℚ
  | .linearL W b, x => linear W b x
  | .reluL, x => x.map relu

/-- Sequential composition `nn.Sequential`: apply the modules in order. -/
def seqApply (layers : List Layer) (x : List ℚ) : List ℚ :=
  layers.foldl (fun v l => l.apply v) x

/-- The parameters of the notebook's `NeuralNetwork` module: three linear
layers (weight and bias each). -/
structure NeuralNetwork where
  w1 : List (List ℚ)
  b1 : List ℚ
  w2 : List (List ℚ)
  b2 : List ℚ
  w3 : List (List ℚ)
  b3 : List ℚ

/-- The `nn.Flatten` module (with batch handled separately): collapse the 2-D image
into one vector of intensities. -/
def flatten (img : Image) : List ℚ := img.flatten

/-- The `linear_relu_stack` of the notebook:
`Linear(28*28,512), ReLU, Linear(512,512), ReLU, Linear(512,10), ReLU`. -/
def linear_relu_stack (nn : NeuralNetwork) : List Layer :=
  [Layer.linearL nn.w1 nn.b1, Layer.reluL,
   Layer.linearL nn.w2 nn.b2, Layer.reluL,
   Layer.linearL nn.w3 nn.b3, Layer.reluL]

/-- Forward pass `NeuralNetwork.forward`: flatten the image, then run the stack. -/
def forward (nn : NeuralNetwork) (x : Image) : List ℚ :=
  seqApply (linear_relu_stack nn) (flatten x)

/-- The model applied to a batch: the batch dimension is a list. -/
def forwardBatch (nn : NeuralNetwork) (xs : List Image) : List (List ℚ) :=
  xs.map (forward nn)

/-- Fresh construction `NeuralNetwork()`: the framework's random
initializer (abstracted as `w layer row col` and `b layer row`) fills
tensors of the architecture's fixed shapes
`Linear(784,512), Linear(512,512), Linear(512,10)`. -/
def NeuralNetwork.init (w : ℕ → ℕ → ℕ → ℚ) (b : ℕ → ℕ → ℚ) : NeuralNetwork :=
  { w1 := (List.range 512).map (fun i => (List.range (28 * 28)).map (w 0 i))
    b1 := (List.range 512).map (b 0)
    w2 := (List.range 512).map (fun i => (List.range 512).map (w 1 i))
    b2 := (List.range 512).map (b 1)
    w3 := (List.range 10).map (fun i => (List.range 512).map (w 2 i))
    b3 := (List.range 10).map (b 2) }

/-- A serialized parameter tensor: a matrix (linear weight) or a vector
(linear bias). -/
inductive Tensor where
  | mat (m : List (List ℚ)) : Tensor
  | vec (v : List ℚ) : Tensor
deriving DecidableEq

/-- The parameter names of the architecture, in `state_dict` order
(the `nn.Sequential` submodule indices 0, 2, 4 carry the parameters). -/
def expected_keys : List String :=
  ["linear_relu_stack.0.weight", "linear_relu_stack.0.bias",
   "linear_relu_stack.2.weight", "linear_relu_stack.2.bias",
   "linear_relu_stack.4.weight", "linear_relu_stack.4.bias"]

/-- Serialization `model.state_dict()`: the named mapping from parameter name to
parameter value that `torch.save` persists. -/
def state_dict (nn : NeuralNetwork) : List (String × Tensor) :=
  [("linear_relu_stack.0.weight", Tensor.mat nn.w1),
   ("linear_relu_stack.0.bias", Tensor.vec nn.b1),
   ("linear_relu_stack.2.weight", Tensor.mat nn.w2),
   ("linear_relu_stack.2.bias", Tensor.vec nn.b2),
   ("linear_relu_stack.4.weight", Tensor.mat nn.w3),
   ("linear_relu_stack.4.bias", Tensor.vec nn.b3)]

/-- Restoration `model.load_state_dict(sd)`: restore every parameter of the receiving
model from the mapping.  Per the data-model invariant, the mapping's key
set must exactly match the architecture's expected parameter names;
any mismatch is a fatal load error (`none`). -/
def load_state_dict (fresh : NeuralNetwork) (sd : List (String × Tensor)) :
    Option NeuralNetwork :=
  if sd.map Prod.fst = expected_keys then
    match sd.lookup ("linear_relu_stack.0.weight"),
        sd.lookup ("linear_relu_stack.0.bias"),
        sd.lookup ("linear_relu_stack.2.weight"),
        sd.lookup ("linear_relu_stack.2.bias"),
        sd.lookup ("linear_relu_stack.4.weight"),
        sd.lookup ("linear_relu_stack.4.bias") with
    | some (Tensor.mat w1), some (Tensor.vec b1),
      some (Tensor.mat w2), some (Tensor.vec b2),
      some (Tensor.mat w3), some (Tensor.vec b3) =>
        some { fresh with w1 := w1, b1 := b1, w2 := w2, b2 := b2,
                          w3 := w3, b3 := b3 }
    | _, _, _, _, _, _ => none
  else none

/-- C1: checkpoint round-trip.  Saving the model's parameter mapping
(`state_dict`) and loading it into a freshly constructed model of the same
architecture succeeds and yields a model whose forward outputs equal the
original's on every input (exact rational arithmetic, so in particular
within any floating-point tolerance). -/
theorem checkpoint_roundtrip (nn fresh : NeuralNetwork) (x : Image) :
    ∃ nn2, load_state_dict fresh (state_dict nn) = some nn2 ∧
      forward nn2 x = forward nn x := by
  refine ⟨nn, ?_, rfl⟩
  rfl

/-- The forward computation as the spec words it (refinement target):
flatten, then three linear transformations, each followed by the
elementwise rectified-linear nonlinearity. -/
def forwardSpec (nn : NeuralNetwork) (x : Image) : List ℚ :=
  ((linear nn.w3 nn.b3
      ((linear nn.w2 nn.b2
          ((linear nn.w1 nn.b1 (flatten x)).map relu)).map relu)).map relu)

/-- Running the `nn.Sequential` stack is the spec's pipeline. -/
theorem forward_eq_forwardSpec (nn : NeuralNetwork) (x : Image) :
    forward nn x = forwardSpec nn x := rfl

/-- Flattening a list of equal-length rows yields `rows * k` values. -/
theorem flatten_length_of_rows (x : Image) (k : ℕ)
    (hr : ∀ r ∈ x, r.length = k) : (flatten x).length = x.length * k := by
  induction x with
  | nil => simp [flatten]
  | cons a l ih =>
      have ih' := ih (fun r hrr => hr r (by simp [hrr]))
      simp only [flatten] at ih' ⊢
      simp only [List.flatten_cons, List.length_append, List.length_cons]
      rw [hr a (by simp), ih']
      ring

/-- The output dimension of a linear layer. -/
theorem linear_length (W : List (List ℚ)) (b x : List ℚ) :
    (linear W b x).length = min W.length b.length := by
  simp [linear]

theorem init_w1 (w : ℕ → ℕ → ℕ → ℚ) (b : ℕ → ℕ → ℚ) :
    (NeuralNetwork.init w b).w1
      = (List.range 512).map (fun i => (List.range (28 * 28)).map (w 0 i)) := rfl

theorem init_b1 (w : ℕ → ℕ → ℕ → ℚ) (b : ℕ → ℕ → ℚ) :
    (NeuralNetwork.init w b).b1 = (List.range 512).map (b 0) := rfl

theorem init_w2 (w : ℕ → ℕ → ℕ → ℚ) (b : ℕ → ℕ → ℚ) :
    (NeuralNetwork.init w b).w2
      = (List.range 512).map (fun i => (List.range 512).map (w 1 i)) := rfl

theorem init_b2 (w : ℕ → ℕ → ℕ → ℚ) (b : ℕ → ℕ → ℚ) :
    (NeuralNetwork.init w b).b2 = (List.range 512).map (b 1) := rfl

theorem init_w3 (w : ℕ → ℕ → ℕ → ℚ) (b : ℕ → ℕ → ℚ) :
    (NeuralNetwork.init w b).w3
      = (List.range 10).map (fun i => (List.range 512).map (w 2 i)) := rfl

theorem init_b3 (w : ℕ → ℕ → ℕ → ℚ) (b : ℕ → ℕ → ℚ) :
    (NeuralNetwork.init w b).b3 = (List.range 10).map (b 2) := rfl

/-- C2: for a freshly constructed model of the notebook's architecture
and any 28×28 input image, the forward computation flattens the image into
a vector of 784 values, equals three linear transformations
(784→512, 512→512, 512→10) each followed by the elementwise
rectified-linear nonlinearity, produces 10 scores per image, and
preserves the batch dimension. -/
theorem forward_architecture (w : ℕ → ℕ → ℕ → ℚ) (b : ℕ → ℕ → ℚ) (x : Image)
    (hx : x.length = 28) (hrow : ∀ r ∈ x, r.length = 28) :
    (flatten x).length = 784 ∧
    forward (NeuralNetwork.init w b) x = forwardSpec (NeuralNetwork.init w b) x ∧
    ((NeuralNetwork.init w b).w1.length = 512 ∧
      (∀ r ∈ (NeuralNetwork.init w b).w1, r.length = 784) ∧
      (NeuralNetwork.init w b).b1.length = 512) ∧
    ((NeuralNetwork.init w b).w2.length = 512 ∧
      (∀ r ∈ (NeuralNetwork.init w b).w2, r.length = 512) ∧
      (NeuralNetwork.init w b).b2.length = 512) ∧
    ((NeuralNetwork.init w b).w3.length = 10 ∧
      (∀ r ∈ (NeuralNetwork.init w b).w3, r.length = 512) ∧
      (NeuralNetwork.init w b).b3.length = 10) ∧
    (forward (NeuralNetwork.init w b) x).length = 10 ∧
    (∀ xs : List Image, (forwardBatch (NeuralNetwork.init w b) xs).length = xs.length) := by
  refine ⟨?_, forward_eq_forwardSpec _ _, ⟨?_, ?_, ?_⟩, ⟨?_, ?_, ?_⟩, ⟨?_, ?_, ?_⟩, ?_, ?_⟩
  · rw [flatten_length_of_rows x 28 hrow, hx]
  · simp only [init_w1, List.length_map, List.length_range]
  · intro r hrr
    simp only [init_w1, List.mem_map] at hrr
    obtain ⟨i, -, rfl⟩ := hrr
    simp only [List.length_map, List.length_range]
  · simp only [init_b1, List.length_map, List.length_range]
  · simp only [init_w2, List.length_map, List.length_range]
  · intro r hrr
    simp only [init_w2, List.mem_map] at hrr
    obtain ⟨i, -, rfl⟩ := hrr
    simp only [List.length_map, List.length_range]
  · simp only [init_b2, List.length_map, List.length_range]
  · simp only [init_w3, List.length_map, List.length_range]
  · intro r hrr
    simp only [init_w3, List.mem_map] at hrr
    obtain ⟨i, -, rfl⟩ := hrr
    simp only [List.length_map, List.length_range]
  · simp only [init_b3, List.length_map, List.length_range]
  · rw [forward_eq_forwardSpec]
    simp only [forwardSpec, List.length_map, linear_length, init_w3, init_b3,
      List.length_range, min_self]
  · intro xs
    simp [forwardBatch]

/-- Witness for C2 at the all-zero 28×28 image and zero initializer. -/
theorem forward_architecture_witness :
    (List.replicate 28 (List.replicate 28 (0 : ℚ))).length = 28 ∧
    (∀ r ∈ List.replicate 28 (List.replicate 28 (0 : ℚ)), r.length = 28) ∧
    (flatten (List.replicate 28 (List.replicate 28 (0 : ℚ)))).length = 784 ∧
    (forward (NeuralNetwork.init (fun _ _ _ => 0) (fun _ _ => 0))
        (List.replicate 28 (List.replicate 28 (0 : ℚ)))).length = 10 :=
  ⟨by simp, by intro r hr; rw [List.eq_of_mem_replicate hr]; simp,
    (forward_architecture (fun _ _ _ => 0) (fun _ _ => 0)
      (List.replicate 28 (List.replicate 28 (0 : ℚ))) (by simp)
      (by intro r hr; rw [List.eq_of_mem_replicate hr]; simp)).1,
    (forward_architecture (fun _ _ _ => 0) (fun _ _ => 0)
      (List.replicate 28 (List.replicate 28 (0 : ℚ))) (by simp)
      (by intro r hr; rw [List.eq_of_mem_replicate hr]; simp)).2.2.2.2.2.1⟩

/-- C9: every output score of the forward computation is non-negative,
because the final linear layer is followed by a rectified-linear
activation. -/
theorem forward_scores_nonneg (nn : NeuralNetwork) (x : Image) :
    ∀ s ∈ forward nn x, 0 ≤ s := by
  intro s hs
  rw [forward_eq_forwardSpec] at hs
  simp only [forwardSpec] at hs
  obtain ⟨a, -, rfl⟩ := List.mem_map.1 hs
  exact le_max_left 0 a

/-- Witness for C9 at a concrete one-pixel network and image. -/
theorem forward_scores_nonneg_witness :
    (2 : ℚ) ∈ forward ⟨[[1]], [0], [[1]], [0], [[1]], [0]⟩ [[2]] ∧ (0 : ℚ) ≤ 2 :=
  ⟨by norm_num [forward, seqApply, linear_relu_stack, Layer.apply, linear, dot,
      flatten, relu],
    forward_scores_nonneg ⟨[[1]], [0], [[1]], [0], [[1]], [0]⟩ [[2]] 2
      (by norm_num [forward, seqApply, linear_relu_stack, Layer.apply, linear, dot,
        flatten, relu])⟩

/-- A batch as the loader yields it: images stacked into one list, labels
stacked into a parallel list. -/
abbrev Batch := List Image × List ℕ

/-- The training-time state of the model as the optimizer sees it:
`model.parameters()` flattened into one list of scalar parameters, the
per-parameter gradient buffers, and the module's train/eval mode flag. -/
structure SGDModel where
  params : List ℚ
  grads : List ℚ
  training : Bool

/-- Zeroing `optimizer.zero_grad()`: reset every accumulated gradient to zero. -/
def zero_grad (m : SGDModel) : SGDModel :=
  { m with grads := m.grads.map (fun _ => 0) }

/-- Backpropagation `loss.backward()`: the autograd collaborator hands back the gradient
`g` of the loss with respect to the parameters; it is accumulated into
the gradient buffers. -/
def backward (g : List ℚ) (m : SGDModel) : SGDModel :=
  { m with grads := List.zipWith (· + ·) m.grads g }

/-- One `optimizer.step()` for plain SGD: each parameter moves against its
gradient, scaled by the learning rate. -/
def sgd_step (lr : ℚ) (m : SGDModel) : SGDModel :=
  { m with params := List.zipWith (fun p g => p - lr * g) m.params m.grads }

/-- The notebook's optimizer configuration:
`torch.optim.SGD(model.parameters(), lr=1e-3)`. -/
def learning_rate : ℚ := 1 / 1000

/-- The body of `train`, with `i` the running `enumerate` index.  Per
batch: forward, loss, `zero_grad`, `backward`, `step`; every 100th batch
the pair `(loss.item(), batch * len(X))` is printed (collected here as a
log). -/
def trainGo (fwdB : List ℚ → List Image → List (List ℚ))
    (lossB : List (List ℚ) → List ℕ → ℚ)
    (gradOf : List ℚ → Batch → List ℚ) (lr : ℚ) :
    ℕ → SGDModel → List Batch → SGDModel × List (ℚ × ℕ)
  | _, m, [] => (m, [])
  | i, m, (X, y) :: bs =>
      let pred := fwdB m.params X
      let loss := lossB pred y
      let m3 := sgd_step lr (backward (gradOf m.params (X, y)) (zero_grad m))
      let rest := trainGo fwdB lossB gradOf lr (i + 1) m3 bs
      if i % 100 = 0 then (rest.1, (loss, i * X.length) :: rest.2) else rest

/-- Training entry `train(dataloader, model, loss_fn, optimizer)`: `model.train()` then
one pass over all batches in order. -/
def train (fwdB : List ℚ → List Image → List (List ℚ))
    (lossB : List (List ℚ) → List ℕ → ℚ)
    (gradOf : List ℚ → Batch → List ℚ) (lr : ℚ)
    (m : SGDModel) (batches : List Batch) : SGDModel × List (ℚ × ℕ) :=
  trainGo fwdB lossB gradOf lr 0 { m with training := true } batches

/-- The training loop with the periodic reporting removed. -/
def trainQuietGo (gradOf : List ℚ → Batch → List ℚ) (lr : ℚ) :
    SGDModel → List Batch → SGDModel
  | m, [] => m
  | m, b :: bs =>
      trainQuietGo gradOf lr
        (sgd_step lr (backward (gradOf m.params b) (zero_grad m))) bs

/-- Entry point of the loop without its print statement. -/
def trainQuiet (gradOf : List ℚ → Batch → List ℚ) (lr : ℚ)
    (m : SGDModel) (batches : List Batch) : SGDModel :=
  trainQuietGo gradOf lr { m with training := true } batches

/-- The parameter trajectory the training loop is meant to follow: one
SGD update per batch, in batch order, from the gradient taken at the
current parameters. -/
def sgdRun (gradOf : List ℚ → Batch → List ℚ) (lr : ℚ)
    (p : List ℚ) (bs : List Batch) : List ℚ :=
  bs.foldl (fun p b => List.zipWith (fun x g => x - lr * g) p (gradOf p b)) p

/-- Adding a gradient into freshly zeroed buffers of the same length
yields that gradient. -/
theorem zipWith_add_map_zero (l g : List ℚ) (h : l.length = g.length) :
    List.zipWith (· + ·) (l.map (fun _ => (0 : ℚ))) g = g := by
  induction l generalizing g with
  | nil => cases g with
      | nil => rfl
      | cons a g => simp at h
  | cons a l ih => cases g with
      | nil => simp at h
      | cons b g =>
          simp only [List.map_cons, List.zipWith_cons_cons, zero_add]
          rw [ih g (by simpa using h)]

/-- One loop body (`zero_grad`; `backward`; `step`) performs exactly one
SGD update on the parameters and leaves the last gradient in the buffers. -/
theorem step_characterization (g : List ℚ) (lr : ℚ) (m : SGDModel)
    (hm : m.grads.length = m.params.length) (hg : g.length = m.params.length) :
    (sgd_step lr (backward g (zero_grad m))).params
        = List.zipWith (fun p gr => p - lr * gr) m.params g ∧
    (sgd_step lr (backward g (zero_grad m))).grads = g ∧
    (sgd_step lr (backward g (zero_grad m))).training = m.training := by
  have hb : (backward g (zero_grad m)).grads = g := by
    simp only [backward, zero_grad]
    exact zipWith_add_map_zero m.grads g (by rw [hm, hg])
  refine ⟨?_, ?_, rfl⟩
  · simp only [sgd_step, backward, zero_grad]
    simp only [backward, zero_grad] at hb
    rw [hb]
  · simp only [sgd_step]
    exact hb

/-- The state reached by the loop does not depend on the reporting. -/
theorem trainGo_fst (fwdB : List ℚ → List Image → List (List ℚ))
    (lossB : List (List ℚ) → List ℕ → ℚ)
    (gradOf : List ℚ → Batch → List ℚ) (lr : ℚ) :
    ∀ (bs : List Batch) (i : ℕ) (m : SGDModel),
      (trainGo fwdB lossB gradOf lr i m bs).1 = trainQuietGo gradOf lr m bs := by
  intro bs
  induction bs with
  | nil => intro i m; rfl
  | cons b bs ih =>
      intro i m
      obtain ⟨X, y⟩ := b
      rw [trainGo, trainQuietGo]
      by_cases hi : i % 100 = 0 <;> simp only [hi, if_true, if_false, ih]

/-- The quiet loop follows the SGD parameter trajectory. -/
theorem trainQuietGo_params (gradOf : List ℚ → Batch → List ℚ) (lr : ℚ)
    (hg : ∀ p b, (gradOf p b).length = p.length) :
    ∀ (bs : List Batch) (m : SGDModel), m.grads.length = m.params.length →
      (trainQuietGo gradOf lr m bs).params = sgdRun gradOf lr m.params bs := by
  intro bs
  induction bs with
  | nil => intro m hm; rfl
  | cons b bs ih =>
      intro m hm
      obtain ⟨hp, hgr, -⟩ :=
        step_characterization (gradOf m.params b) lr m hm (hg m.params b)
      rw [trainQuietGo, ih _ (by rw [hp, hgr, List.length_zipWith, hg, min_self]),
        hp]
      rfl

/-- C3: one training pass visits the batches in sequence order with no
reordering and no skipping; each batch contributes exactly one update
that, thanks to the reset of the accumulated gradients before the
backward step, moves the parameters by `-lr` times the gradient taken at
the parameters current for that batch; the learning rate is the fixed
`1e-3` of the notebook's optimizer. -/
theorem train_pass_characterization
    (fwdB : List ℚ → List Image → List (List ℚ))
    (lossB : List (List ℚ) → List ℕ → ℚ)
    (gradOf : List ℚ → Batch → List ℚ) (m : SGDModel) (bs : List Batch)
    (hg : ∀ p b, (gradOf p b).length = p.length)
    (hm : m.grads.length = m.params.length) :
    learning_rate = 1 / 1000 ∧
    (train fwdB lossB gradOf learning_rate m bs).1.params
      = sgdRun gradOf learning_rate m.params bs ∧
    sgdRun gradOf learning_rate m.params bs
      = bs.foldl
          (fun p b => List.zipWith (fun x g => x - learning_rate * g) p (gradOf p b))
          m.params := by
  refine ⟨rfl, ?_, rfl⟩
  rw [train, trainGo_fst]
  exact trainQuietGo_params gradOf learning_rate hg bs _ hm

/-- Witness for C3: a one-parameter model trained on one batch. -/
theorem train_pass_characterization_witness :
    (∀ (p : List ℚ) (b : Batch), ((fun (p : List ℚ) (_ : Batch) => p) p b).length = p.length) ∧
    ([(0 : ℚ)].length = [(2 : ℚ)].length) ∧
    (train (fun _ _ => []) (fun _ _ => 0) (fun p _ => p) learning_rate
        { params := [2], grads := [0], training := false }
        [([[[1]]], [1])]).1.params
      = sgdRun (fun p _ => p) learning_rate [2] [([[[1]]], [1])] :=
  ⟨fun p _ => rfl, rfl,
    (train_pass_characterization (fun _ _ => []) (fun _ _ => 0) (fun p _ => p)
      { params := [2], grads := [0], training := false } [([[[1]]], [1])]
      (fun p _ => rfl) rfl).2.1⟩

/-- C8: one SGD step (learning rate `1e-3`) on a gradient with at
least one non-zero component changes at least one parameter value. -/
theorem sgd_step_changes_params (m : SGDModel) (i : ℕ)
    (hm : m.grads.length = m.params.length) (hi : i < m.params.length)
    (hgz : m.grads.getD i 0 ≠ 0) :
    (sgd_step learning_rate m).params ≠ m.params := by
  intro h
  have hgi : i < m.grads.length := by omega
  have hzl : i < (List.zipWith (fun p g => p - learning_rate * g)
      m.params m.grads).length := by
    rw [List.length_zipWith]; omega
  have h3 := congrArg (fun l => l.getD i 0) h
  simp only [sgd_step] at h3
  rw [List.getD_eq_getElem _ _ hzl, List.getD_eq_getElem _ _ hi,
    List.getElem_zipWith] at h3
  have hz : learning_rate * m.grads[i] = 0 := by linarith
  rcases mul_eq_zero.1 hz with hlr | hzero
  · norm_num [learning_rate] at hlr
  · exact hgz (by rw [List.getD_eq_getElem _ _ hgi]; exact hzero)

/-- Witness for C8: one parameter, gradient `1`. -/
theorem sgd_step_changes_params_witness :
    ([(1 : ℚ)].length = [(1 : ℚ)].length) ∧ (0 : ℕ) < 1 ∧
    ([(1 : ℚ)].getD 0 0 ≠ 0) ∧
    (sgd_step learning_rate
        { params := [1], grads := [1], training := false }).params ≠ [1] :=
  ⟨rfl, by decide, by norm_num,
    sgd_step_changes_params
      { params := [1], grads := [1], training := false } 0 rfl (by decide)
      (by norm_num)⟩

/-- Unfolding one SGD update of the parameter trajectory. -/
theorem sgdRun_cons (gradOf : List ℚ → Batch → List ℚ) (lr : ℚ)
    (p : List ℚ) (b : Batch) (bs : List Batch) :
    sgdRun gradOf lr p (b :: bs)
      = sgdRun gradOf lr (List.zipWith (fun x g => x - lr * g) p (gradOf p b)) bs := rfl

/-- Splitting a filtered-and-mapped index range at index 0. -/
theorem range_filter_map_shift {α : Type} (n : ℕ) (q : ℕ → Bool) (f : ℕ → α) :
    ((List.range (n + 1)).filter q).map f
      = (if q 0 then [f 0] else [])
        ++ ((List.range n).filter (fun k => q (k + 1))).map (fun k => f (k + 1)) := by
  rw [List.range_succ_eq_map, List.filter_cons]
  by_cases h : q 0
  · rw [if_pos h, if_pos h]
    simp only [List.map_cons, List.cons_append, List.nil_append]
    rw [List.filter_map, List.map_map]
    rfl
  · rw [if_neg h, if_neg h]
    simp only [List.nil_append]
    rw [List.filter_map, List.map_map]
    rfl

/-- The log produced by the loop from index `i`: one entry per batch whose
absolute index is a multiple of 100, carrying the loss at the parameters
current for that batch and `index * len(X)`. -/
theorem trainGo_log (fwdB : List ℚ → List Image → List (List ℚ))
    (lossB : List (List ℚ) → List ℕ → ℚ)
    (gradOf : List ℚ → Batch → List ℚ) (lr : ℚ)
    (hg : ∀ p b, (gradOf p b).length = p.length) :
    ∀ (bs : List Batch) (i : ℕ) (m : SGDModel),
      m.grads.length = m.params.length →
      (trainGo fwdB lossB gradOf lr i m bs).2
        = ((List.range bs.length).filter (fun k => (i + k) % 100 == 0)).map
            (fun k =>
              (lossB (fwdB (sgdRun gradOf lr m.params (bs.take k))
                  (bs.getD k ([], [])).1) (bs.getD k ([], [])).2,
                (i + k) * (bs.getD k ([], [])).1.length)) := by
  intro bs
  induction bs with
  | nil => intro i m hm; rfl
  | cons b bs ih =>
      intro i m hm
      obtain ⟨X, y⟩ := b
      obtain ⟨hp, hgr, -⟩ :=
        step_characterization (gradOf m.params (X, y)) lr m hm (hg m.params (X, y))
      have hm3len :
          (sgd_step lr (backward (gradOf m.params (X, y)) (zero_grad m))).grads.length
            = (sgd_step lr (backward (gradOf m.params (X, y)) (zero_grad m))).params.length := by
        rw [hp, hgr, List.length_zipWith, hg, min_self]
      have hrest := ih (i + 1)
        (sgd_step lr (backward (gradOf m.params (X, y)) (zero_grad m))) hm3len
      have htail :
          ((List.range bs.length).filter (fun k => (i + (k + 1)) % 100 == 0)).map
            (fun k =>
              (lossB (fwdB (sgdRun gradOf lr m.params (((X, y) :: bs).take (k + 1)))
                  (((X, y) :: bs).getD (k + 1) ([], [])).1)
                  (((X, y) :: bs).getD (k + 1) ([], [])).2,
                (i + (k + 1)) * (((X, y) :: bs).getD (k + 1) ([], [])).1.length))
          = (trainGo fwdB lossB gradOf lr (i + 1)
              (sgd_step lr (backward (gradOf m.params (X, y)) (zero_grad m))) bs).2 := by
        rw [hrest]
        rw [List.filter_congr
          (fun k _ => by rw [show i + (k + 1) = (i + 1) + k from by omega])]
        refine List.map_congr_left ?_
        intro k hk
        simp only [List.take_succ_cons, List.getD_cons_succ, sgdRun_cons, hp]
        rw [show i + (k + 1) = (i + 1) + k from by omega]
      rw [trainGo, List.length_cons,
        range_filter_map_shift bs.length
          (fun k => (i + k) % 100 == 0)
          (fun k =>
            (lossB (fwdB (sgdRun gradOf lr m.params (((X, y) :: bs).take k))
                (((X, y) :: bs).getD k ([], [])).1) (((X, y) :: bs).getD k ([], [])).2,
              (i + k) * (((X, y) :: bs).getD k ([], [])).1.length))]
      by_cases hi : i % 100 = 0
      · simp only [hi, Nat.add_zero, if_true, if_false, beq_self_eq_true,
          List.cons_append, List.nil_append, List.take_zero, List.getD_cons_zero]
        rw [htail]
        simp [hi, sgdRun]
      · have hq0 : ((i + 0) % 100 == 0) = false := by
          simp [hi]
        simp only [hq0, Bool.false_eq_true, if_false, List.nil_append]
        rw [htail]
        simp [hi]

/-- C7 (amended): the training loop prints exactly on batch indices
0, 100, 200, …, reporting the current scalar loss (computed from the
parameters current for that batch) and `batch_index * len(X)` — the
sample count of the preceding batches only when those batches all have
the current batch's size — and the reporting has no effect on training
semantics: the resulting model state equals that of the loop with the
print removed. -/
theorem train_reporting (fwdB : List ℚ → List Image → List (List ℚ))
    (lossB : List (List ℚ) → List ℕ → ℚ)
    (gradOf : List ℚ → Batch → List ℚ) (m : SGDModel) (bs : List Batch)
    (hg : ∀ p b, (gradOf p b).length = p.length)
    (hm : m.grads.length = m.params.length) :
    (train fwdB lossB gradOf learning_rate m bs).1
      = trainQuiet gradOf learning_rate m bs ∧
    (train fwdB lossB gradOf learning_rate m bs).2
      = ((List.range bs.length).filter (fun i => i % 100 == 0)).map
          (fun i =>
            (lossB (fwdB (sgdRun gradOf learning_rate m.params (bs.take i))
                (bs.getD i ([], [])).1) (bs.getD i ([], [])).2,
              i * (bs.getD i ([], [])).1.length)) := by
  constructor
  · rw [train, trainQuiet, trainGo_fst]
  · rw [train, trainGo_log fwdB lossB gradOf learning_rate hg bs 0
      { params := m.params, grads := m.grads, training := true } hm]
    simp only [Nat.zero_add]

/-- Witness for C7 at a one-parameter model and a single batch. -/
theorem train_reporting_witness :
    (∀ (p : List ℚ) (b : Batch), ((fun (p : List ℚ) (_ : Batch) => p) p b).length = p.length) ∧
    ([(0 : ℚ)].length = [(3 : ℚ)].length) ∧
    (train (fun _ _ => []) (fun _ _ => 0) (fun p _ => p) learning_rate
        { params := [3], grads := [0], training := false } [([[[0]]], [0])]).1
      = trainQuiet (fun p _ => p) learning_rate
          { params := [3], grads := [0], training := false } [([[[0]]], [0])] :=
  ⟨fun p _ => rfl, rfl,
    (train_reporting (fun _ _ => []) (fun _ _ => 0) (fun p _ => p)
      { params := [3], grads := [0], training := false } [([[[0]]], [0])]
      (fun p _ => rfl) rfl).1⟩

/-- C7 counterexample: on a batch sequence of one hundred 2-sample
batches followed by one 1-sample batch, the report on batch index 100
carries the count 100, while the number of samples processed is 200
before that batch and 201 after it — `batch * len(X)` is not "the number
of samples processed so far". -/
theorem train_reporting_counterexample :
    (train (fun _ _ => []) (fun _ _ => (0 : ℚ)) (fun _ _ => ([] : List ℚ)) (1 / 1000)
        { params := [], grads := [], training := false }
        (List.replicate 100 (([[[(0 : ℚ)]], [[(0 : ℚ)]]], [0, 0]) : Batch)
          ++ [(([[[(0 : ℚ)]]], [0]) : Batch)])).2
      = [(0, 0), (0, 100)] ∧
    (((List.replicate 100 (([[[(0 : ℚ)]], [[(0 : ℚ)]]], [0, 0]) : Batch)
        ++ [(([[[(0 : ℚ)]]], [0]) : Batch)]).take 100).map
        (fun b => b.1.length)).sum = 200 ∧
    (((List.replicate 100 (([[[(0 : ℚ)]], [[(0 : ℚ)]]], [0, 0]) : Batch)
        ++ [(([[[(0 : ℚ)]]], [0]) : Batch)]).take 101).map
        (fun b => b.1.length)).sum = 201 ∧
    (100 : ℕ) ≠ 200 ∧ (100 : ℕ) ≠ 201 := by
  refine ⟨by decide, by decide, by decide, by decide, by decide⟩

/-- Batching `DataLoader(dataset, batch_size)`: yield the dataset in order, in
consecutive groups of `batch_size` samples; the last group may be
shorter; no shuffling. -/
def toBatches {α : Type} (n : ℕ) (l : List α) : List (List α) :=
  if hn : n = 0 then []
  else
    match l with
    | [] => []
    | x :: xs => (x :: xs).take n :: toBatches n ((x :: xs).drop n)
termination_by l.length
decreasing_by
  rw [List.length_drop]
  simp only [List.length_cons]
  omega

/-- Worker of `argmax`: scan the remaining scores, keeping the index and
value of the first maximum seen so far. -/
def argmaxGo : ℕ → ℕ → ℚ → List ℚ → ℕ
  | _, bi, _, [] => bi
  | i, bi, bv, v :: vs =>
      if bv < v then argmaxGo (i + 1) i v vs else argmaxGo (i + 1) bi bv vs

/-- Prediction `tensor.argmax`: index of the first maximal score (0 on empty). -/
def argmax : List ℚ → ℕ
  | [] => 0
  | v :: vs => argmaxGo 1 0 v vs

/-- Evaluation `test(dataloader, model)`: `model.eval()`, then — with gradient
tracking suspended — one pass over the test batches accumulating the
scalar loss per batch and the count of samples whose argmax prediction
equals the label; finally loss is divided by the number of batches and
the correct count by the dataset size. -/
def test (fwd : List ℚ → Image → List ℚ)
    (lossB : List (List ℚ) → List ℕ → ℚ)
    (dataset : List (Image × ℕ)) (batch_size : ℕ) (m : SGDModel) :
    SGDModel × ℚ × ℚ :=
  let size := dataset.length
  let num_batches := (toBatches batch_size dataset).length
  let m2 := { m with training := false }
  let acc := (toBatches batch_size dataset).foldl
    (fun (a : ℚ × ℕ) c =>
      (a.1 + lossB ((c.map Prod.fst).map (fwd m.params)) (c.map Prod.snd),
       a.2 + (List.zipWith (fun p yi => if argmax p = yi then 1 else 0)
          ((c.map Prod.fst).map (fwd m.params)) (c.map Prod.snd)).sum))
    (0, 0)
  (m2, acc.1 / (num_batches : ℚ), (acc.2 : ℚ) / (size : ℚ))

/-- Per-batch count of matching argmax predictions, as the zip the code
computes, equals a plain count over the batch's samples. -/
theorem batch_correct_count (fwd : List ℚ → Image → List ℚ) (params : List ℚ)
    (c : List (Image × ℕ)) :
    (List.zipWith (fun p yi => if argmax p = yi then 1 else 0)
        ((c.map Prod.fst).map (fwd params)) (c.map Prod.snd)).sum
      = c.countP (fun s => argmax (fwd params s.1) == s.2) := by
  induction c with
  | nil => rfl
  | cons s c ih =>
      simp only [List.map_cons, List.zipWith_cons_cons, List.sum_cons,
        List.countP_cons]
      rw [ih]
      by_cases h : argmax (fwd params s.1) = s.2
      · simp [h, Nat.add_comm]
      · simp [h]

/-- The evaluation fold accumulates the per-batch losses and the
per-batch correct counts. -/
theorem test_fold (fwd : List ℚ → Image → List ℚ)
    (lossB : List (List ℚ) → List ℕ → ℚ) (params : List ℚ)
    (bs : List (List (Image × ℕ))) (a : ℚ) (b : ℕ) :
    bs.foldl
      (fun (acc : ℚ × ℕ) c =>
        (acc.1 + lossB ((c.map Prod.fst).map (fwd params)) (c.map Prod.snd),
         acc.2 + (List.zipWith (fun p yi => if argmax p = yi then 1 else 0)
            ((c.map Prod.fst).map (fwd params)) (c.map Prod.snd)).sum))
      (a, b)
      = (a + (bs.map
            (fun c => lossB ((c.map Prod.fst).map (fwd params)) (c.map Prod.snd))).sum,
         b + (bs.map
            (fun c => c.countP (fun s => argmax (fwd params s.1) == s.2))).sum) := by
  induction bs generalizing a b with
  | nil => simp
  | cons c bs ih =>
      simp only [List.foldl_cons, List.map_cons, List.sum_cons]
      rw [ih, batch_correct_count]
      simp [add_assoc]

/-- A batched pass visits exactly the dataset: the chunks flatten back. -/
theorem toBatches_flatten {α : Type} (n : ℕ) (hn : 0 < n) :
    ∀ l : List α, (toBatches n l).flatten = l := by
  suffices H : ∀ (k : ℕ) (l : List α), l.length ≤ k → (toBatches n l).flatten = l by
    exact fun l => H l.length l le_rfl
  intro k
  induction k with
  | zero =>
      intro l hl
      have : l = [] := List.eq_nil_of_length_eq_zero (Nat.le_zero.1 hl)
      subst this
      rw [toBatches]
      split <;> rfl
  | succ k ih =>
      intro l hl
      cases l with
      | nil => rw [toBatches]; split <;> rfl
      | cons x xs =>
          rw [toBatches, dif_neg (by omega : ¬n = 0)]
          show ((x :: xs).take n :: toBatches n ((x :: xs).drop n)).flatten = x :: xs
          simp only [List.flatten_cons]
          rw [ih ((x :: xs).drop n)
            (by
              rw [List.length_drop]
              simp only [List.length_cons] at hl ⊢
              omega)]
          exact List.take_append_drop n (x :: xs)

/-- A non-empty dataset yields at least one batch. -/
theorem toBatches_ne_nil {α : Type} (n : ℕ) (hn : 0 < n) (l : List α)
    (hl : l ≠ []) : toBatches n l ≠ [] := by
  cases l with
  | nil => exact absurd rfl hl
  | cons x xs =>
      rw [toBatches, dif_neg (by omega : ¬n = 0)]
      show ((x :: xs).take n :: toBatches n ((x :: xs).drop n)) ≠ []
      simp

/-- Summing per-chunk counts counts over the flattened list. -/
theorem countP_flatten_sum {α : Type} (p : α → Bool) (bs : List (List α)) :
    (bs.map (fun c => c.countP p)).sum = bs.flatten.countP p := by
  induction bs with
  | nil => rfl
  | cons c bs ih =>
      simp only [List.map_cons, List.sum_cons, List.flatten_cons,
        List.countP_append, ih]

/-- The values `test` reports: mean of the per-batch losses over the
number of batches, and the dataset-wide count of argmax-correct samples
over the dataset size. -/
theorem test_values (fwd : List ℚ → Image → List ℚ)
    (lossB : List (List ℚ) → List ℕ → ℚ)
    (dataset : List (Image × ℕ)) (bsz : ℕ) (m : SGDModel) (hb : 0 < bsz) :
    (test fwd lossB dataset bsz m).2.1
      = ((toBatches bsz dataset).map
          (fun c => lossB ((c.map Prod.fst).map (fwd m.params)) (c.map Prod.snd))).sum
        / ((toBatches bsz dataset).length : ℚ) ∧
    (test fwd lossB dataset bsz m).2.2
      = ((dataset.countP (fun s => argmax (fwd m.params s.1) == s.2) : ℕ) : ℚ)
        / (dataset.length : ℚ) := by
  unfold test
  rw [test_fold]
  constructor
  · simp
  · simp only [zero_add]
    rw [countP_flatten_sum, toBatches_flatten bsz hb dataset]

/-- C4: after a full evaluation pass, the reported mean loss is the
sum of the per-batch scalar losses divided by the number of batches, and
the reported accuracy is the count of samples whose index of maximum
predicted score equals the true label, divided by the total sample
count. -/
theorem test_reports_mean_loss_and_accuracy (fwd : List ℚ → Image → List ℚ)
    (lossB : List (List ℚ) → List ℕ → ℚ)
    (dataset : List (Image × ℕ)) (bsz : ℕ) (m : SGDModel) (hb : 0 < bsz) :
    (test fwd lossB dataset bsz m).2.1
      = ((toBatches bsz dataset).map
          (fun c => lossB ((c.map Prod.fst).map (fwd m.params)) (c.map Prod.snd))).sum
        / ((toBatches bsz dataset).length : ℚ) ∧
    (test fwd lossB dataset bsz m).2.2
      = ((dataset.countP (fun s => argmax (fwd m.params s.1) == s.2) : ℕ) : ℚ)
        / (dataset.length : ℚ) :=
  test_values fwd lossB dataset bsz m hb

/-- Witness for C4 at a one-sample dataset with batch size 1. -/
theorem test_reports_mean_loss_and_accuracy_witness :
    (0 : ℕ) < 1 ∧
    (test (fun _ _ => [1]) (fun _ _ => 2) [([[0]], 0)] 1
        { params := [], grads := [], training := false }).2.1
      = ((toBatches 1 [(([[0]], 0) : Image × ℕ)]).map
          (fun c => (fun (_ : List (List ℚ)) (_ : List ℕ) => (2 : ℚ))
            ((c.map Prod.fst).map ((fun _ _ => [1]) ([] : List ℚ)))
            (c.map Prod.snd))).sum
        / ((toBatches 1 [(([[0]], 0) : Image × ℕ)]).length : ℚ) ∧
    (test (fun _ _ => [1]) (fun _ _ => 2) [([[0]], 0)] 1
        { params := [], grads := [], training := false }).2.2
      = ((([(([[0]], 0) : Image × ℕ)].countP
            (fun s => argmax ((fun _ _ => [1]) ([] : List ℚ) s.1) == s.2) : ℕ)) : ℚ)
        / (([(([[0]], 0) : Image × ℕ)].length : ℚ)) :=
  ⟨by decide,
    (test_reports_mean_loss_and_accuracy (fun _ _ => [1]) (fun _ _ => 2)
      [([[0]], 0)] 1 { params := [], grads := [], training := false }
      (by decide)).1,
    (test_reports_mean_loss_and_accuracy (fun _ _ => [1]) (fun _ _ => 2)
      [([[0]], 0)] 1 { params := [], grads := [], training := false }
      (by decide)).2⟩

/-- C5: evaluation never mutates the parameters (or the gradient
buffers): the state returned by `test` carries the same parameters, and
a second run of `test` on that state reports the same mean loss and
accuracy as the first. -/
theorem test_never_mutates_params (fwd : List ℚ → Image → List ℚ)
    (lossB : List (List ℚ) → List ℕ → ℚ)
    (dataset : List (Image × ℕ)) (bsz : ℕ) (m : SGDModel) :
    (test fwd lossB dataset bsz m).1.params = m.params ∧
    (test fwd lossB dataset bsz m).1.grads = m.grads ∧
    (test fwd lossB dataset bsz ((test fwd lossB dataset bsz m).1)).2
      = (test fwd lossB dataset bsz m).2 ∧
    (test fwd lossB dataset bsz ((test fwd lossB dataset bsz m).1)).1.params
      = m.params :=
  ⟨rfl, rfl, rfl, rfl⟩

/-- C6: for a non-empty dataset (and positive batch size, with the
cross-entropy collaborator's losses non-negative), the reported accuracy
lies in `[0, 1]` and the reported mean loss is non-negative. -/
theorem test_accuracy_loss_bounds (fwd : List ℚ → Image → List ℚ)
    (lossB : List (List ℚ) → List ℕ → ℚ)
    (dataset : List (Image × ℕ)) (bsz : ℕ) (m : SGDModel)
    (hb : 0 < bsz) (hd : dataset ≠ [])
    (hloss : ∀ P y, 0 ≤ lossB P y) :
    0 ≤ (test fwd lossB dataset bsz m).2.1 ∧
    0 ≤ (test fwd lossB dataset bsz m).2.2 ∧
    (test fwd lossB dataset bsz m).2.2 ≤ 1 := by
  obtain ⟨h1, h2⟩ := test_values fwd lossB dataset bsz m hb
  refine ⟨?_, ?_, ?_⟩
  · rw [h1]
    apply div_nonneg
    · apply List.sum_nonneg
      intro q hq
      simp only [List.mem_map] at hq
      obtain ⟨c, -, rfl⟩ := hq
      exact hloss _ _
    · exact Nat.cast_nonneg _
  · rw [h2]
    exact div_nonneg (Nat.cast_nonneg _) (Nat.cast_nonneg _)
  · rw [h2]
    have hsize : 0 < dataset.length := List.length_pos.2 hd
    rw [div_le_one (by exact_mod_cast hsize)]
    exact_mod_cast dataset.countP_le_length _

/-- Witness for C6 at a one-sample dataset with batch size 1. -/
theorem test_accuracy_loss_bounds_witness :
    (0 : ℕ) < 1 ∧ ([(([[0]], 0) : Image × ℕ)] ≠ []) ∧
    (∀ (P : List (List ℚ)) (y : List ℕ), (0 : ℚ) ≤ (fun _ _ => (1 : ℚ)) P y) ∧
    0 ≤ (test (fun _ _ => [1]) (fun _ _ => 1) [([[0]], 0)] 1
        { params := [], grads := [], training := false }).2.1 ∧
    0 ≤ (test (fun _ _ => [1]) (fun _ _ => 1) [([[0]], 0)] 1
        { params := [], grads := [], training := false }).2.2 ∧
    (test (fun _ _ => [1]) (fun _ _ => 1) [([[0]], 0)] 1
        { params := [], grads := [], training := false }).2.2 ≤ 1 :=
  ⟨by decide, by simp, fun P y => by norm_num,
    (test_accuracy_loss_bounds (fun _ _ => [1]) (fun _ _ => 1) [([[0]], 0)] 1
      { params := [], grads := [], training := false }
      (by decide) (by simp) (fun P y => by norm_num)).1,
    (test_accuracy_loss_bounds (fun _ _ => [1]) (fun _ _ => 1) [([[0]], 0)] 1
      { params := [], grads := [], training := false }
      (by decide) (by simp) (fun P y => by norm_num)).2.1,
    (test_accuracy_loss_bounds (fun _ _ => [1]) (fun _ _ => 1) [([[0]], 0)] 1
      { params := [], grads := [], training := false }
      (by decide) (by simp) (fun P y => by norm_num)).2.2⟩

/-- Python `random.randint(a, b)`: a random integer `N` with `a ≤ N ≤ b` — both
endpoints included; `draw` abstracts the generator's outcome, every
residue being reachable. -/
def randint (a b : ℕ) (draw : ℕ) : ℕ := a + draw % (b - a + 1)

/-- The notebook's `rand_index = random.randint(0, len(test_data))`. -/
def rand_index (len_test_data : ℕ) (draw : ℕ) : ℕ :=
  randint 0 len_test_data draw

/-- C10: the random index is NOT always in bounds: `random.randint`
includes its upper endpoint, so with the MNIST test set (10000 samples)
the draw can produce index 10000, one past the last valid index; the
index is, however, never larger than `len(test_data)`. -/
theorem rand_index_out_of_bounds :
    rand_index 10000 10000 = 10000 ∧ ¬rand_index 10000 10000 < 10000 ∧
    ∀ draw : ℕ, rand_index 10000 draw ≤ 10000 := by
  refine ⟨by decide, by decide, ?_⟩
  intro d
  simp only [rand_index, randint]
  omega
